import Mathlib

/-!
Verification of the dopplersky-workers snapshot pipeline.

The Python services are shallowly embedded as pure Lean functions:
database tables become lists of records, the remote Bluesky provider
becomes a script of `Except` responses consumed call-by-call, and every
`try/except` block becomes an explicit `Except`/`Option` match.
Timestamps are modelled as ISO-8601 strings ("YYYY-MM-DDTHH:MM:SS");
for such uniformly formatted strings, instant order coincides with
lexicographic order by code point, which also models both Python string
comparison and SQL timestamp comparison.  Python string slicing `s[0:10]`
is modelled by taking the first ten characters.
-/

namespace Doppler

/-- Python lexicographic string comparison by code point: `a < b`. -/
def strLtChars : List Char → List Char → Bool
  | [], [] => false
  | [], _ :: _ => true
  | _ :: _, [] => false
  | a :: as, b :: bs =>
    if a.val < b.val then true
    else if b.val < a.val then false
    else strLtChars as bs

/-- Python lexicographic string comparison by code point: `a <= b`. -/
def strLeChars : List Char → List Char → Bool
  | [], _ => true
  | _ :: _, [] => false
  | a :: as, b :: bs =>
    if a.val < b.val then true
    else if b.val < a.val then false
    else strLeChars as bs

/-- Python `a < b` on strings. -/
def pyLt (a b : String) : Bool := strLtChars a.data b.data

/-- Python `a <= b` on strings. -/
def pyLe (a b : String) : Bool := strLeChars a.data b.data

/-- Python slicing `s[0:10]`, as used for `str(time_range)[0:10]` and
the cursor string in the source. -/
def pySlice10 (s : String) : String := String.mk (s.data.take 10)

/-- The single exception surface of the embedded program.  The Python code
defines exactly one API exception class, `BlueskyAPIError`
(src/core/bluesky_client.py); database failures are `psycopg2.Error`;
`datetime.strptime` failures are `ValueError`. -/
inductive PyExc where
  | blueskyAPIError (msg : String)
  | psycopg2Error (msg : String)
  | valueError (msg : String)
  deriving DecidableEq

/-- The Python class of an exception value, as seen by an `except` clause
that catches by class. -/
def pyExcClass : PyExc → String
  | .blueskyAPIError _ => "BlueskyAPIError"
  | .psycopg2Error _ => "psycopg2.Error"
  | .valueError _ => "ValueError"

/-- Python dataclass `SnapshotData` (src/services/database_service.py). -/
structure SnapshotData where
  did : String
  handle : String
  date : String
  followers : Nat
  following : Nat
  posts : Nat
  likes : Nat
  replies : Nat
  quotes : Nat
  reposts : Nat
  deriving DecidableEq

/-- One row of the `snapshots` table, in the column order of the INSERT in
`DatabaseService.upsert_snapshot`. -/
structure SnapshotRow where
  uuid : String
  followers : Nat
  following : Nat
  posts : Nat
  date : String
  did : String
  likes : Nat
  replies : Nat
  quotes : Nat
  reposts : Nat
  deriving DecidableEq

/-- The `(did, date)` conflict key of the `snapshots` unique constraint. -/
def snapshotKeyMatch (did date : String) (r : SnapshotRow) : Bool :=
  r.did == did && r.date == date

/-- The `DO UPDATE SET` clause of `upsert_snapshot`: every counter field is
overwritten from the excluded row; `uuid`, `did` and `date` are untouched. -/
def overwriteCounters (s : SnapshotData) (r : SnapshotRow) : SnapshotRow :=
  { r with followers := s.followers, following := s.following, posts := s.posts,
           likes := s.likes, replies := s.replies, quotes := s.quotes,
           reposts := s.reposts }

/-- Conflict resolution of the upsert on one existing row: overwrite the
counters when the row carries the conflicting `(did, date)` key. -/
def conflictResolve (s : SnapshotData) (r : SnapshotRow) : SnapshotRow :=
  if snapshotKeyMatch s.did s.date r then overwriteCounters s r else r

/-- The row the insert path of the upsert creates. -/
def snapshotRowOf (uuid : String) (s : SnapshotData) : SnapshotRow :=
  ⟨uuid, s.followers, s.following, s.posts, s.date, s.did,
   s.likes, s.replies, s.quotes, s.reposts⟩

/-- Embeds `DatabaseService.upsert_snapshot`: `INSERT ... ON CONFLICT (did, date)
DO UPDATE SET` all counter columns.  `uuid` is the freshly generated
`gen_random_uuid()` value, used only when the insert path is taken. -/
def upsert_snapshot (uuid : String) (s : SnapshotData) (t : List SnapshotRow) :
    List SnapshotRow :=
  if (t.filter (snapshotKeyMatch s.did s.date)).isEmpty then
    t ++ [snapshotRowOf uuid s]
  else
    t.map (conflictResolve s)

/-- Invariant of the `snapshots` table: at most one row per `(did, date)`. -/
def SnapKeysUnique (t : List SnapshotRow) : Prop :=
  t.Pairwise (fun a b => ¬(a.did = b.did ∧ a.date = b.date))

/-- One fetched feed entry, flattening the fields the source reads from
the post object: `uri`, the author did, the four engagement counters, and
`record.createdAt` (an ISO timestamp string). -/
structure FetchedPost where
  uri : String
  authorDid : String
  likeCount : Nat
  replyCount : Nat
  quoteCount : Nat
  repostCount : Nat
  createdAt : String
  deriving DecidableEq

/-- One row of the `posts` table, in the column order assumed by
`update_posts_for_actor` when it rebuilds the frame:
uri, did, likes, replies, quotes, reposts, createdAt, updatedAt. -/
structure StoredPost where
  uri : String
  did : String
  likes : Nat
  replies : Nat
  quotes : Nat
  reposts : Nat
  createdAt : String
  updatedAt : String
  deriving DecidableEq

/-- One response of `app.bsky.feed.getAuthorFeed`: the `feed` entries and
the optional continuation `cursor`. -/
structure FeedPage where
  feed : List FetchedPost
  cursor : Option String
  deriving DecidableEq

/-- Whether ten characters parse under strptime with the %Y-%m-%d format.
Month/day range checks are not modelled; only the digit/dash shape is. -/
def isDateShape : List Char → Bool
  | [a, b, c, d, e, f, g, h, i, j] =>
    a.isDigit && b.isDigit && c.isDigit && d.isDigit && e == '-' &&
    f.isDigit && g.isDigit && h == '-' && i.isDigit && j.isDigit
  | _ => false

/-- True when strptime accepts the first ten characters of the cursor. -/
def cursorDateParses (c : String) : Bool := isDateShape (pySlice10 c).data

/-- Embeds `PostService.get_posts_for_actor`.  The remote provider is a script of
responses consumed one per `_call_endpoint` call: `.ok page` is a parsed
JSON page, `.error e` a raised `BlueskyAPIError`; an exhausted script is
treated like a raised error (the call cannot succeed).  Every exit path of
the Python function is inside its `try`, and the `except` returns the
posts accumulated so far, so the embedding is total and each raising site
returns the accumulation live at that point.  `timeRange` is the
`now - timedelta(days=7)` instant; the cutoff comparison
`cursor_datetime > time_range` is instant order, modelled lexicographically
(exact, for well-formed date and timestamp strings). -/
def get_posts_for_actor (timeRange actor : String) :
    List (Except PyExc FeedPage) → String → List FetchedPost → Bool → List FetchedPost
  | [], _, posts, _ => posts
  | resp :: rest, _, posts, fetch_all =>
    match resp with
    | .error _ => posts
    | .ok page =>
      let posts1 := posts ++ page.feed.filter (fun p => p.authorDid == actor)
      match page.cursor with
      | none => posts1
      | some c =>
        if posts1.length < 10000 then
          if fetch_all then
            get_posts_for_actor timeRange actor rest c posts1 fetch_all
          else
            if cursorDateParses c then
              if pyLt timeRange (pySlice10 c) then
                get_posts_for_actor timeRange actor rest c posts1 fetch_all
              else posts1
            else posts1
        else posts1

/-- Keep-first deduplication against a set of already-seen URIs. -/
def dedupURI : List String → List FetchedPost → List FetchedPost
  | _, [] => []
  | seen, p :: ps =>
    if seen.contains p.uri then dedupURI seen ps
    else p :: dedupURI (p.uri :: seen) ps

/-- Embeds the pandas drop-duplicates-by-uri step: keep the first occurrence of
each URI, preserving order. -/
def drop_duplicates_by_uri (l : List FetchedPost) : List FetchedPost :=
  dedupURI [] l

/-- Parameters of one executed `UPDATE posts SET ... WHERE uri = ...`. -/
structure UpdateOp where
  likes : Nat
  replies : Nat
  quotes : Nat
  reposts : Nat
  updatedAt : String
  uri : String
  deriving DecidableEq

/-- A write issued by the merge loop: an immediate UPDATE or a queued
batch INSERT. -/
inductive WriteOp where
  | update (op : UpdateOp)
  | insert (p : StoredPost)
  deriving DecidableEq

/-- The URI a write targets. -/
def writeOpUri : WriteOp → String
  | .update u => u.uri
  | .insert p => p.uri

/-- The fetch-mode branch of `update_posts_for_actor` (lines 74-77): zero
stored posts for the actor forces a full fetch, otherwise the requested
mode is used. -/
def postFetchMode (db : List StoredPost) (did : String) (update_all : Bool) : Bool :=
  if ((db.filter (fun p => p.did == did)).length == 0) = true then true else update_all

/-- The working set `update_posts_for_actor` obtains from the API:
`get_posts_for_actor` at the forced fetch mode, empty cursor, empty
accumulator. -/
def fetchedWorkingSet (script : List (Except PyExc FeedPage))
    (db : List StoredPost) (did : String) (update_all : Bool)
    (timeRange : String) : List FetchedPost :=
  get_posts_for_actor timeRange did script "" [] (postFetchMode db did update_all)

/-- The `SELECT * FROM posts WHERE did = ...` lookup, restricted to
`"createdAt" > time_range_date` in incremental mode.  SQL compares the
timestamp column against the date literal; for ISO strings this is
lexicographic order. -/
def trackedPosts (db : List StoredPost) (did : String) (update_all : Bool)
    (cutoffDate : String) : List StoredPost :=
  if update_all then db.filter (fun p => p.did == did)
  else db.filter (fun p => p.did == did && pyLt cutoffDate p.createdAt)

/-- The body of the merge loop (lines 110-149) for one fetched row:
skip old rows in incremental mode; update an existing URI only when an
engagement counter changed; otherwise queue an insert. -/
def processRow (update_all : Bool) (cutoffDate now : String)
    (tracked : List StoredPost) (row : FetchedPost) : Option WriteOp :=
  if !update_all && pyLe row.createdAt cutoffDate then none
  else
    match tracked.find? (fun p => p.uri == row.uri) with
    | some existing =>
      if existing.likes != row.likeCount || existing.replies != row.replyCount ||
         existing.quotes != row.quoteCount || existing.reposts != row.repostCount then
        some (.update ⟨row.likeCount, row.replyCount, row.quoteCount,
                       row.repostCount, now, row.uri⟩)
      else none
    | none =>
      some (.insert ⟨row.uri, row.authorDid, row.likeCount, row.replyCount,
                     row.quoteCount, row.repostCount, row.createdAt, now⟩)

/-- Applying one row of `UPDATE posts SET likes, replies, quotes, reposts,
"updatedAt" WHERE uri`. -/
def applyRow (u : UpdateOp) (p : StoredPost) : StoredPost :=
  if p.uri == u.uri then
    { p with likes := u.likes, replies := u.replies, quotes := u.quotes,
             reposts := u.reposts, updatedAt := u.updatedAt }
  else p

/-- One executed UPDATE statement over the whole `posts` table. -/
def applyUpdate (u : UpdateOp) (t : List StoredPost) : List StoredPost :=
  t.map (applyRow u)

/-- Outcome of one `update_posts_for_actor` run: the final `posts` table
together with the UPDATE statements executed and the rows batch-inserted. -/
structure UpdateResult where
  table : List StoredPost
  updates : List UpdateOp
  inserts : List StoredPost
  deriving DecidableEq

/-- Select the UPDATE writes (`posts_updated` side of the loop). -/
def toUpdate : WriteOp → Option UpdateOp
  | .update u => some u
  | .insert _ => none

/-- Select the queued INSERT rows (`posts_to_insert`). -/
def toInsert : WriteOp → Option StoredPost
  | .update _ => none
  | .insert p => some p

/-- Whether a write is an UPDATE. -/
def isUpdateOp : WriteOp → Bool
  | .update _ => true
  | .insert _ => false

/-- The writes the merge loop issues over the deduplicated working set. -/
def mergeOps (update_all : Bool) (cutoffDate now : String)
    (tracked : List StoredPost) (deduped : List FetchedPost) : List WriteOp :=
  deduped.filterMap (processRow update_all cutoffDate now tracked)

/-- Embeds `PostService.update_posts_for_actor`.  `timeRange` stands for the
`now - timedelta(days=7)` instant (computed from the same clock in both
this function and the nested fetch), `now` for the `updatedAt` timestamp
written by updates and inserts. -/
def update_posts_for_actor (script : List (Except PyExc FeedPage))
    (db : List StoredPost) (did : String) (update_all : Bool)
    (timeRange now : String) : UpdateResult :=
  let posts := fetchedWorkingSet script db did update_all timeRange
  if posts.isEmpty then ⟨db, [], []⟩
  else
    let cutoffDate := pySlice10 timeRange
    let ops := mergeOps update_all cutoffDate now
      (trackedPosts db did update_all cutoffDate) (drop_duplicates_by_uri posts)
    let updates := ops.filterMap toUpdate
    let inserts := ops.filterMap toInsert
    ⟨(updates.foldl (fun t u => applyUpdate u t) db) ++ inserts, updates, inserts⟩

/-- The URIs written (updated or inserted) by one run. -/
def writeUris (r : UpdateResult) : List String :=
  r.updates.map UpdateOp.uri ++ r.inserts.map StoredPost.uri

/-- The record returned by `DatabaseService.get_engagement_totals`. -/
structure Engagement where
  likes : Nat
  replies : Nat
  quotes : Nat
  reposts : Nat
  deriving DecidableEq

/-- Embeds `DatabaseService.get_engagement_totals`: `SELECT SUM(likes), ...
FROM posts WHERE did = %s GROUP BY did LIMIT 1`.  With a GROUP BY and no
matching rows the query returns no row, `fetchone()` yields `None`, and
the explicit all-zero record is returned; otherwise the sums of the
single group.  (`result[i] or 0` maps a 0 sum to 0, the same value.) -/
def get_engagement_totals (posts : List StoredPost) (did : String) : Engagement :=
  let rows := posts.filter (fun p => p.did == did)
  if rows.isEmpty then ⟨0, 0, 0, 0⟩
  else ⟨(rows.map StoredPost.likes).sum, (rows.map StoredPost.replies).sum,
        (rows.map StoredPost.quotes).sum, (rows.map StoredPost.reposts).sum⟩

/-- Python dataclass `UserProfile` (src/core/bluesky_client.py). -/
structure UserProfile where
  did : String
  handle : String
  display_name : Option String
  avatar : Option String
  followers_count : Nat
  following_count : Nat
  posts_count : Nat
  deriving DecidableEq

/-- Embeds `BlueskyClient.get_profiles`: an empty actor list returns `[]` without
calling the endpoint; otherwise the single `_call_endpoint` outcome is
surfaced (`callResult` is that outcome with the `profiles` field already
parsed into `UserProfile` records). -/
def get_profiles (callResult : Except PyExc (List UserProfile))
    (dids : List String) : Except PyExc (List UserProfile) :=
  if dids.isEmpty then .ok [] else callResult

/-- Embeds `BlueskyClient.get_single_profile`: wraps `get_profiles([actor])`,
raising `BlueskyAPIError("No profile found for ...")` when the provider
returns no match, and returning `profiles[0]` otherwise. -/
def get_single_profile (callResult : Except PyExc (List UserProfile))
    (actor : String) : Except PyExc UserProfile :=
  match get_profiles callResult [actor] with
  | .error e => .error e
  | .ok [] => .error (.blueskyAPIError ("No profile found for " ++ actor))
  | .ok (p :: _) => .ok p

/-- One row of the `users` table.  The source reads it positionally:
index 0 did, 1 handle, 2 displayName, 3 avatar, indices 4-6 are columns
this service never reads, index 7 the skip flag. -/
structure UserRow where
  did : String
  handle : String
  displayName : Option String
  avatar : Option String
  colFour : Option String
  colFive : Option String
  colSix : Option String
  skipUser : Bool
  deriving DecidableEq

/-- Embeds `SnapshotService._should_update_user`: the fetched profile differs
from the stored row in handle, display name or avatar. -/
def should_update_user (profile : UserProfile) (u : UserRow) : Bool :=
  profile.handle != u.handle || profile.display_name != u.displayName ||
  profile.avatar != u.avatar

/-- The effectful collaborators of `process_user_profile` for one account,
each as the `Except` outcome the corresponding call would produce:
`getUser` is `get_user_by_did` (`None` when the row is absent),
`updateProfile` is `update_user_profile`, `updatePosts` is
`PostService.update_posts_for_actor` (which re-raises on any failure),
`getEngagement` is `get_engagement_totals`, `upsertSnap` is
`upsert_snapshot`. -/
structure ProcessEnv where
  getUser : Except PyExc (Option UserRow)
  updateProfile : Except PyExc Unit
  updatePosts : Except PyExc Unit
  getEngagement : Except PyExc Engagement
  upsertSnap : Except PyExc Unit

/-- The `try` body of `SnapshotService.process_user_profile`: the exact
sequence of calls, short-circuiting on the first raised exception. -/
def process_user_profileE (env : ProcessEnv) (profile : UserProfile)
    (curr_date : String) : Except PyExc (Option SnapshotData) :=
  match env.getUser with
  | .error e => .error e
  | .ok none => .ok none
  | .ok (some u) =>
    if u.skipUser then .ok none
    else
      match (if should_update_user profile u then env.updateProfile else .ok ()) with
      | .error e => .error e
      | .ok () =>
        match env.updatePosts with
        | .error e => .error e
        | .ok () =>
          match env.getEngagement with
          | .error e => .error e
          | .ok eng =>
            match env.upsertSnap with
            | .error e => .error e
            | .ok () =>
              .ok (some ⟨profile.did, profile.handle, curr_date,
                profile.followers_count, profile.following_count,
                profile.posts_count, eng.likes, eng.replies, eng.quotes,
                eng.reposts⟩)

/-- Embeds `SnapshotService.process_user_profile`: the body above under the
`except Exception` handler, which logs and returns `None`. -/
def process_user_profile (env : ProcessEnv) (profile : UserProfile)
    (curr_date : String) : Option SnapshotData :=
  match process_user_profileE env profile curr_date with
  | .ok r => r
  | .error _ => none

/-- Slicing loop of `_chunk_users`, fuelled by the list length (the fuel
never runs out for a positive chunk size). -/
def chunkUsersGo : Nat → List (String × String) → Nat →
    List (List (String × String))
  | 0, _, _ => []
  | _ + 1, [], _ => []
  | fuel + 1, u :: us, k => (u :: us).take k :: chunkUsersGo fuel ((u :: us).drop k) k

/-- Embeds `SnapshotService._chunk_users`: slices of `chunk_size` in order.  The
source always passes 25 (a zero chunk size would make Python `range`
raise, so that case is never reached). -/
def chunk_users (users : List (String × String)) (chunk_size : Nat) :
    List (List (String × String)) :=
  chunkUsersGo users.length users chunk_size

/-- The profile-collection loop of `create_snapshots_batch`: one
`get_profiles` call per chunk of dids; a raised exception for a chunk is
logged and the loop continues, so that chunk contributes no profiles. -/
def collect_profiles (fetchChunk : List String → Except PyExc (List UserProfile))
    (chunks : List (List (String × String))) : List UserProfile :=
  chunks.foldl
    (fun acc chunk =>
      match fetchChunk (chunk.map Prod.fst) with
      | .ok ps => acc ++ ps
      | .error _ => acc) []

/-- Embeds `SnapshotService.create_snapshots_batch`: resolve users (passed in as
the `get_active_users` result), chunk by 25, collect profiles chunk by
chunk, process every profile, and count the non-`None` results.  The
thread pool is modelled by processing each profile independently; tasks
share no state, and `process_user_profile` never raises, so the count is
the number of profiles whose processing produced a snapshot. -/
def create_snapshots_batch (users : List (String × String))
    (fetchChunk : List String → Except PyExc (List UserProfile))
    (envOf : UserProfile → ProcessEnv) (curr_date : String) : Nat :=
  if users.isEmpty then 0
  else
    let chunks := chunk_users users 25
    let all_profiles := collect_profiles fetchChunk chunks
    (all_profiles.filterMap (fun p => process_user_profile (envOf p) p curr_date)).length

/-- One row of the `snapshot_logs` table. -/
structure SnapshotLog where
  id : Nat
  status : String
  timeStarted : String
  timeCompleted : String
  duration : Nat
  totalUsers : Nat
  deriving DecidableEq

/-- Embeds `DatabaseService.create_snapshot_log`: id = row count + 1, inserted
with status `in_progress` and zero totals; returns the table and id. -/
def create_snapshot_log (logs : List SnapshotLog) (date : String) :
    List SnapshotLog × Nat :=
  let log_id := logs.length + 1
  (logs ++ [⟨log_id, "in_progress", date, date, 0, 0⟩], log_id)

/-- Embeds `DatabaseService.update_snapshot_log`: `UPDATE snapshot_logs SET
status, time_completed, duration, total_users WHERE id`, with status set to completed. -/
def update_snapshot_log (logs : List SnapshotLog) (log_id : Nat)
    (date : String) (duration : Nat) (total_users : Nat) : List SnapshotLog :=
  logs.map (fun l =>
    if l.id == log_id then
      { l with status := "completed", timeCompleted := date,
               duration := duration, totalUsers := total_users }
    else l)

/-- Embeds `SnapshotRunner.run_snapshot_collection`: create the log entry, run
the batch, update the entry with duration and processed count.  Wall-clock
readings are the `startDate`/`endDate`/`duration` parameters. -/
def run_snapshot_collection (logs : List SnapshotLog)
    (startDate endDate : String) (duration : Nat)
    (users : List (String × String))
    (fetchChunk : List String → Except PyExc (List UserProfile))
    (envOf : UserProfile → ProcessEnv) (curr_date : String) :
    List SnapshotLog × Nat :=
  let created := create_snapshot_log logs startDate
  let total := create_snapshots_batch users fetchChunk envOf curr_date
  (update_snapshot_log created.1 created.2 endDate duration total, total)

/-- Whether an `Except` outcome is a success. -/
def exceptOk {α : Type} : Except PyExc α → Bool
  | .ok _ => true
  | .error _ => false

/-- The situations in which the per-account task must yield no result:
stored record absent, skip flag set, or an exception raised by any of the
calls the task actually performs. -/
def processNoneTrigger (env : ProcessEnv) (profile : UserProfile) : Prop :=
  env.getUser = .ok none ∨
  (∃ u, env.getUser = .ok (some u) ∧ u.skipUser = true) ∨
  (∃ e, env.getUser = .error e) ∨
  (∃ e, env.updatePosts = .error e) ∨
  (∃ e, env.getEngagement = .error e) ∨
  (∃ e, env.upsertSnap = .error e) ∨
  (∃ e u, env.getUser = .ok (some u) ∧ should_update_user profile u = true ∧
    env.updateProfile = .error e)

/-- The author-filtered posts a scripted feed response contributes:
`some` of the filtered feed for a parsed page, `none` for a raised call. -/
def okPageFeed (actor : String) : Except PyExc FeedPage → Option (List FetchedPost)
  | .ok pg => some (pg.feed.filter (fun p => p.authorDid == actor))
  | .error _ => none

/-- The profiles a single chunk contributes to the run: the fetched list
on success, nothing when the fetch for that chunk raised. -/
def chunkProfiles (fetchChunk : List String → Except PyExc (List UserProfile))
    (c : List (String × String)) : List UserProfile :=
  match fetchChunk (c.map Prod.fst) with
  | .ok ps => ps
  | .error _ => []

/-- Concrete active-user list for exercising the batch: 51 accounts,
which chunk into three batches of 25, 25 and 1. -/
def usersW : List (String × String) := List.replicate 51 ("did:a", "a")

/-- Concrete profile fetcher that fails exactly on the one-element batch. -/
def fetchChunkW : List String → Except PyExc (List UserProfile) := fun dids =>
  if dids.length == 1 then .error (.blueskyAPIError "connection reset")
  else .ok (dids.map (fun d => ⟨d, d, none, none, 0, 0, 0⟩))

/-- Concrete per-account environment: the stored record is absent, so
every task returns no result. -/
def envOfW : UserProfile → ProcessEnv := fun _ =>
  ⟨.ok none, .ok (), .ok (), .ok ⟨0, 0, 0, 0⟩, .ok ()⟩

theorem conflictResolve_did (s : SnapshotData) (r : SnapshotRow) :
    (conflictResolve s r).did = r.did := by
  unfold conflictResolve
  split <;> rfl

theorem conflictResolve_date (s : SnapshotData) (r : SnapshotRow) :
    (conflictResolve s r).date = r.date := by
  unfold conflictResolve
  split <;> rfl

theorem snapshotKeyMatch_conflictResolve (d dt : String) (s : SnapshotData)
    (r : SnapshotRow) :
    snapshotKeyMatch d dt (conflictResolve s r) = snapshotKeyMatch d dt r := by
  unfold snapshotKeyMatch
  rw [conflictResolve_did, conflictResolve_date]

theorem conflictResolve_idem (s : SnapshotData) (r : SnapshotRow) :
    conflictResolve s (conflictResolve s r) = conflictResolve s r := by
  unfold conflictResolve
  by_cases h : snapshotKeyMatch s.did s.date r = true
  · have h2 : snapshotKeyMatch s.did s.date (overwriteCounters s r) = true := h
    simp only [h, h2, if_true]
    rfl
  · simp only [h]
    simp [h]

theorem conflictResolve_self (u : String) (s : SnapshotData) :
    conflictResolve s (snapshotRowOf u s) = snapshotRowOf u s := by
  have h : snapshotKeyMatch s.did s.date (snapshotRowOf u s) = true := by
    simp [snapshotKeyMatch, snapshotRowOf]
  unfold conflictResolve
  rw [h]
  rfl

theorem map_conflictResolve_of_none (s : SnapshotData) (t : List SnapshotRow)
    (h : ∀ r ∈ t, snapshotKeyMatch s.did s.date r = false) :
    t.map (conflictResolve s) = t := by
  induction t with
  | nil => rfl
  | cons a l ih =>
    have ha := h a (List.mem_cons_self a l)
    simp only [List.map_cons]
    rw [show conflictResolve s a = a from by unfold conflictResolve; rw [ha]; rfl]
    rw [ih (fun r hr => h r (List.mem_cons_of_mem a hr))]

theorem filter_map_conflictResolve (s : SnapshotData) (t : List SnapshotRow) :
    (t.map (conflictResolve s)).filter (snapshotKeyMatch s.did s.date) =
      (t.filter (snapshotKeyMatch s.did s.date)).map (conflictResolve s) := by
  induction t with
  | nil => rfl
  | cons a l ih =>
    simp only [List.map_cons, List.filter_cons, snapshotKeyMatch_conflictResolve]
    by_cases h : snapshotKeyMatch s.did s.date a = true
    · rw [h]
      simp only [if_true, List.map_cons, ih]
    · simp only [h]
      simpa using ih

/-- C1: every batch run touches the snapshots table only through
`upsert_snapshot`; any sequence of upserts preserves the at-most-one-row-
per-(did, date) invariant, and re-upserting the same snapshot data (with a
fresh uuid, as a second same-day run would) leaves the table identical —
the conflict branch overwrites every counter field and inserts nothing. -/
theorem upsert_snapshot_unique_and_idempotent (t : List SnapshotRow)
    (h : SnapKeysUnique t) :
    (∀ runs : List (String × SnapshotData),
        SnapKeysUnique (runs.foldl (fun tb r => upsert_snapshot r.1 r.2 tb) t)) ∧
    (∀ u1 u2 s, upsert_snapshot u2 s (upsert_snapshot u1 s t) = upsert_snapshot u1 s t) := by
  have step : ∀ (u : String) (s : SnapshotData) (tb : List SnapshotRow),
      SnapKeysUnique tb → SnapKeysUnique (upsert_snapshot u s tb) := by
    intro u s tb htb
    unfold upsert_snapshot
    by_cases hf : (tb.filter (snapshotKeyMatch s.did s.date)).isEmpty = true
    · rw [if_pos hf]
      rw [List.isEmpty_iff] at hf
      have hnone : ∀ r ∈ tb, ¬snapshotKeyMatch s.did s.date r = true := by
        rw [← List.filter_eq_nil_iff]
        exact hf
      apply List.pairwise_append.mpr
      refine ⟨htb, List.pairwise_singleton _ _, ?_⟩
      intro a ha b hb
      have hb1 : b = snapshotRowOf u s := List.mem_singleton.mp hb
      subst hb1
      have := hnone a ha
      simp only [snapshotKeyMatch, snapshotRowOf, Bool.and_eq_true, beq_iff_eq] at this ⊢
      intro hcon
      exact this ⟨hcon.1, hcon.2⟩
    · rw [if_neg hf]
      exact List.Pairwise.map _
        (fun a b hab => by
          rw [conflictResolve_did, conflictResolve_date, conflictResolve_did,
            conflictResolve_date]
          exact hab) htb
  constructor
  · intro runs
    induction runs generalizing t with
    | nil => exact h
    | cons r rs ih => exact ih _ (step r.1 r.2 t h)
  · intro u1 u2 s
    unfold upsert_snapshot
    by_cases hf : (t.filter (snapshotKeyMatch s.did s.date)).isEmpty = true
    · rw [if_pos hf]
      rw [List.isEmpty_iff] at hf
      have hnone : ∀ r ∈ t, ¬snapshotKeyMatch s.did s.date r = true :=
        List.filter_eq_nil_iff.mp hf
      have hfilter : ((t ++ [snapshotRowOf u1 s]).filter
          (snapshotKeyMatch s.did s.date)) = [snapshotRowOf u1 s] := by
        rw [List.filter_append, hf]
        simp [snapshotKeyMatch, snapshotRowOf]
      rw [hfilter]
      simp only [List.isEmpty_cons, Bool.false_eq_true, if_false]
      rw [List.map_append]
      rw [map_conflictResolve_of_none s t (fun r hr => by
        have := hnone r hr
        simpa using this)]
      simp only [List.map_cons, List.map_nil, conflictResolve_self]
    · rw [if_neg hf]
      have hfilter := filter_map_conflictResolve s t
      have hne : ((t.map (conflictResolve s)).filter
          (snapshotKeyMatch s.did s.date)).isEmpty = false := by
        rw [hfilter]
        cases hcase : t.filter (snapshotKeyMatch s.did s.date) with
        | nil => exact absurd (by rw [hcase]; rfl) hf
        | cons a l => rfl
      rw [hne]
      simp only [Bool.false_eq_true, if_false]
      rw [List.map_map]
      exact List.map_congr_left (fun r _ => conflictResolve_idem s r)

/-- Witness for C1 at the empty table and a concrete snapshot. -/
theorem upsert_snapshot_unique_and_idempotent_witness :
    SnapKeysUnique [] ∧
    upsert_snapshot "uuid-2"
        ⟨"did:abc", "abc.bsky.social", "2026-10-05", 100, 50, 5, 10, 2, 1, 3⟩
        (upsert_snapshot "uuid-1"
          ⟨"did:abc", "abc.bsky.social", "2026-10-05", 100, 50, 5, 10, 2, 1, 3⟩ []) =
      upsert_snapshot "uuid-1"
        ⟨"did:abc", "abc.bsky.social", "2026-10-05", 100, 50, 5, 10, 2, 1, 3⟩ [] :=
  ⟨List.Pairwise.nil,
   (upsert_snapshot_unique_and_idempotent [] List.Pairwise.nil).2 "uuid-1" "uuid-2" _⟩

theorem dedupURI_subset :
    ∀ (l : List FetchedPost) (seen : List String), ∀ q ∈ dedupURI seen l, q ∈ l := by
  intro l
  induction l with
  | nil =>
    intro seen q hq
    simp only [dedupURI] at hq
    exact absurd hq (List.not_mem_nil q)
  | cons p ps ih =>
    intro seen q hq
    by_cases hc : seen.contains p.uri = true
    · simp only [dedupURI, hc, if_true] at hq
      exact List.mem_cons_of_mem p (ih seen q hq)
    · rw [Bool.not_eq_true] at hc
      simp only [dedupURI, hc, Bool.false_eq_true, if_false] at hq
      rcases List.mem_cons.mp hq with h | h
      · exact h ▸ List.mem_cons_self p ps
      · exact List.mem_cons_of_mem p (ih _ q h)

theorem dedupURI_unseen_and_pairwise :
    ∀ (l : List FetchedPost) (seen : List String),
      (∀ q ∈ dedupURI seen l, seen.contains q.uri = false) ∧
      (dedupURI seen l).Pairwise (fun a b => a.uri ≠ b.uri) := by
  intro l
  induction l with
  | nil =>
    intro seen
    constructor
    · intro q hq
      simp only [dedupURI] at hq
      exact absurd hq (List.not_mem_nil q)
    · simp only [dedupURI]
      exact List.Pairwise.nil
  | cons p ps ih =>
    intro seen
    by_cases hc : seen.contains p.uri = true
    · constructor
      · intro q hq
        simp only [dedupURI, hc, if_true] at hq
        exact (ih seen).1 q hq
      · simp only [dedupURI, hc, if_true]
        exact (ih seen).2
    · rw [Bool.not_eq_true] at hc
      have hrec := ih (p.uri :: seen)
      have htail : ∀ q ∈ dedupURI (p.uri :: seen) ps,
          (q.uri == p.uri) = false ∧ seen.contains q.uri = false := by
        intro q hq
        have := hrec.1 q hq
        simp only [List.contains_cons, Bool.or_eq_false_iff] at this
        exact this
      constructor
      · intro q hq
        simp only [dedupURI, hc, Bool.false_eq_true, if_false] at hq
        rcases List.mem_cons.mp hq with h | h
        · rw [h]
          exact hc
        · exact (htail q h).2
      · simp only [dedupURI, hc, Bool.false_eq_true, if_false]
        refine List.pairwise_cons.mpr ⟨?_, hrec.2⟩
        intro q hq
        have := (htail q hq).1
        rw [beq_eq_false_iff_ne] at this
        exact fun hcon => this hcon.symm

theorem drop_duplicates_subset (l : List FetchedPost) :
    ∀ q ∈ drop_duplicates_by_uri l, q ∈ l :=
  dedupURI_subset l []

theorem drop_duplicates_pairwise (l : List FetchedPost) :
    (drop_duplicates_by_uri l).Pairwise (fun a b => a.uri ≠ b.uri) :=
  (dedupURI_unseen_and_pairwise l []).2

theorem mem_uri_inj {α : Type} (g : α → String) :
    ∀ l : List α, l.Pairwise (fun a b => g a ≠ g b) →
      ∀ a ∈ l, ∀ b ∈ l, g a = g b → a = b := by
  intro l
  induction l with
  | nil => intro _ a ha; exact absurd ha (List.not_mem_nil a)
  | cons x xs ih =>
    intro hp a ha b hb hg
    have hx := List.pairwise_cons.mp hp
    rcases List.mem_cons.mp ha with ha1 | ha1 <;>
      rcases List.mem_cons.mp hb with hb1 | hb1
    · rw [ha1, hb1]
    · exact absurd (ha1 ▸ hg) (hx.1 b hb1)
    · exact absurd (hb1 ▸ hg.symm) (hx.1 a ha1)
    · exact ih hx.2 a ha1 b hb1 hg

theorem pairwise_filterMap_name {α β : Type} (f : α → Option β)
    (ga : α → String) (gb : β → String)
    (hf : ∀ a b, f a = some b → gb b = ga a) :
    ∀ l : List α, l.Pairwise (fun a b => ga a ≠ ga b) →
      (l.filterMap f).Pairwise (fun a b => gb a ≠ gb b) := by
  intro l
  induction l with
  | nil => intro _; exact List.Pairwise.nil
  | cons x xs ih =>
    intro hp
    have hx := List.pairwise_cons.mp hp
    cases hfx : f x with
    | none => rw [List.filterMap_cons_none hfx]; exact ih hx.2
    | some b =>
      rw [List.filterMap_cons_some hfx]
      refine List.pairwise_cons.mpr ⟨?_, ih hx.2⟩
      intro b2 hb2
      rcases List.mem_filterMap.mp hb2 with ⟨a2, ha2, hfa2⟩
      rw [hf x b hfx, hf a2 b2 hfa2]
      exact hx.1 a2 ha2

theorem processRow_uri (update_all : Bool) (cutoffDate now : String)
    (tracked : List StoredPost) (row : FetchedPost) (op : WriteOp)
    (h : processRow update_all cutoffDate now tracked row = some op) :
    writeOpUri op = row.uri := by
  unfold processRow at h
  split at h
  · simp at h
  · split at h
    · split at h
      · cases h
        rfl
      · simp at h
    · cases h
      rfl

theorem toUpdate_eq_some {o : WriteOp} {u : UpdateOp} :
    toUpdate o = some u ↔ o = .update u := by
  cases o <;> simp [toUpdate]

theorem toInsert_eq_some {o : WriteOp} {p : StoredPost} :
    toInsert o = some p ↔ o = .insert p := by
  cases o <;> simp [toInsert]

theorem toUpdate_uri (o : WriteOp) (u : UpdateOp) (h : toUpdate o = some u) :
    u.uri = writeOpUri o := by
  rw [toUpdate_eq_some] at h
  rw [h]
  rfl

theorem toInsert_uri (o : WriteOp) (p : StoredPost) (h : toInsert o = some p) :
    p.uri = writeOpUri o := by
  rw [toInsert_eq_some] at h
  rw [h]
  rfl

theorem filter_eq_singleton_of_pairwise {α : Type} [DecidableEq α] (g : α → String) :
    ∀ (l : List α) (u0 : α) (target : String),
      l.Pairwise (fun a b => g a ≠ g b) → u0 ∈ l → g u0 = target →
      l.filter (fun u => g u == target) = [u0] := by
  intro l
  induction l with
  | nil => intro u0 _ _ h; exact absurd h (List.not_mem_nil u0)
  | cons x xs ih =>
    intro u0 target hp hmem htarget
    have hx := List.pairwise_cons.mp hp
    rcases List.mem_cons.mp hmem with h1 | h1
    · subst h1
      rw [List.filter_cons]
      have : (g u0 == target) = true := beq_iff_eq.mpr htarget
      rw [this]
      simp only [if_true]
      have hnil : xs.filter (fun u => g u == target) = [] := by
        apply List.filter_eq_nil_iff.mpr
        intro b hb
        have := hx.1 b hb
        rw [htarget] at this
        simp only [beq_iff_eq]
        exact fun hcon => this hcon.symm
      rw [hnil]
    · rw [List.filter_cons]
      have hne : (g x == target) = false := by
        have := hx.1 u0 h1
        rw [htarget] at this
        simp only [beq_eq_false_iff_ne, ne_eq]
        exact this
      rw [hne]
      simp only [Bool.false_eq_true, if_false]
      exact ih u0 target hx.2 h1 htarget

theorem applyRow_uri (u : UpdateOp) (p : StoredPost) : (applyRow u p).uri = p.uri := by
  unfold applyRow
  split <;> rfl

theorem foldl_applyUpdate_eq_map (us : List UpdateOp) :
    ∀ db : List StoredPost,
      us.foldl (fun t u => applyUpdate u t) db =
        db.map (fun p => us.foldl (fun q u => applyRow u q) p) := by
  induction us with
  | nil => intro db; simp
  | cons u rest ih =>
    intro db
    simp only [List.foldl_cons]
    rw [ih (applyUpdate u db)]
    unfold applyUpdate
    rw [List.map_map]
    rfl

theorem foldl_applyRow_of_no_match (target : String) :
    ∀ (us : List UpdateOp) (p : StoredPost), p.uri = target →
      (∀ u ∈ us, u.uri ≠ target) →
      us.foldl (fun q u => applyRow u q) p = p := by
  intro us
  induction us with
  | nil => intro p _ _; rfl
  | cons u rest ih =>
    intro p hp hnone
    simp only [List.foldl_cons]
    have h1 : applyRow u p = p := by
      unfold applyRow
      have : (p.uri == u.uri) = false := by
        simp only [beq_eq_false_iff_ne, ne_eq, hp]
        exact fun hcon => hnone u (List.mem_cons_self u rest) (hcon ▸ rfl)
      rw [this]
      simp
    rw [h1]
    exact ih p hp (fun v hv => hnone v (List.mem_cons_of_mem u hv))

theorem foldl_applyRow_single (us : List UpdateOp) (p : StoredPost) (u0 : UpdateOp)
    (hfilter : us.filter (fun u => u.uri == p.uri) = [u0]) :
    us.foldl (fun q u => applyRow u q) p =
      { p with likes := u0.likes, replies := u0.replies, quotes := u0.quotes,
               reposts := u0.reposts, updatedAt := u0.updatedAt } := by
  induction us generalizing p with
  | nil => cases hfilter
  | cons u rest ih =>
    rw [List.filter_cons] at hfilter
    by_cases hu : (u.uri == p.uri) = true
    · rw [hu] at hfilter
      simp only [if_true, List.cons.injEq] at hfilter
      obtain ⟨hu0, hrest⟩ := hfilter
      simp only [List.foldl_cons]
      rw [hu0]
      have happ : applyRow u0 p =
          { p with likes := u0.likes, replies := u0.replies, quotes := u0.quotes,
                   reposts := u0.reposts, updatedAt := u0.updatedAt } := by
        unfold applyRow
        rw [show (p.uri == u0.uri) = true from by
          rw [beq_iff_eq]
          exact (beq_iff_eq.mp (hu0 ▸ hu)).symm]
        simp
      rw [happ]
      refine foldl_applyRow_of_no_match p.uri rest
        { p with likes := u0.likes, replies := u0.replies, quotes := u0.quotes,
                 reposts := u0.reposts, updatedAt := u0.updatedAt } rfl ?_
      intro v hv
      have := List.filter_eq_nil_iff.mp hrest v hv
      simp only [beq_iff_eq] at this
      exact this
    · rw [Bool.not_eq_true] at hu
      rw [hu] at hfilter
      simp only [Bool.false_eq_true, if_false] at hfilter
      simp only [List.foldl_cons]
      have h1 : applyRow u p = p := by
        unfold applyRow
        rw [show (p.uri == u.uri) = false from by
          simp only [beq_eq_false_iff_ne, ne_eq]
          intro hcon
          rw [beq_eq_false_iff_ne] at hu
          exact hu hcon.symm]
        simp
      rw [h1]
      exact ih p hfilter

theorem run_updates_eq (script : List (Except PyExc FeedPage)) (db : List StoredPost)
    (did : String) (ua : Bool) (tr now : String)
    (hne : (fetchedWorkingSet script db did ua tr).isEmpty = false) :
    (update_posts_for_actor script db did ua tr now).updates =
      (mergeOps ua (pySlice10 tr) now (trackedPosts db did ua (pySlice10 tr))
        (drop_duplicates_by_uri (fetchedWorkingSet script db did ua tr))).filterMap
          toUpdate := by
  unfold update_posts_for_actor
  simp only [hne, Bool.false_eq_true, if_false]

theorem run_inserts_eq (script : List (Except PyExc FeedPage)) (db : List StoredPost)
    (did : String) (ua : Bool) (tr now : String)
    (hne : (fetchedWorkingSet script db did ua tr).isEmpty = false) :
    (update_posts_for_actor script db did ua tr now).inserts =
      (mergeOps ua (pySlice10 tr) now (trackedPosts db did ua (pySlice10 tr))
        (drop_duplicates_by_uri (fetchedWorkingSet script db did ua tr))).filterMap
          toInsert := by
  unfold update_posts_for_actor
  simp only [hne, Bool.false_eq_true, if_false]

theorem run_table_eq (script : List (Except PyExc FeedPage)) (db : List StoredPost)
    (did : String) (ua : Bool) (tr now : String)
    (hne : (fetchedWorkingSet script db did ua tr).isEmpty = false) :
    (update_posts_for_actor script db did ua tr now).table =
      (((mergeOps ua (pySlice10 tr) now (trackedPosts db did ua (pySlice10 tr))
          (drop_duplicates_by_uri (fetchedWorkingSet script db did ua tr))).filterMap
            toUpdate).foldl (fun t u => applyUpdate u t) db) ++
        (mergeOps ua (pySlice10 tr) now (trackedPosts db did ua (pySlice10 tr))
          (drop_duplicates_by_uri (fetchedWorkingSet script db did ua tr))).filterMap
            toInsert := by
  unfold update_posts_for_actor
  simp only [hne, Bool.false_eq_true, if_false]

theorem fetched_nonempty_of_mem_dedup (script : List (Except PyExc FeedPage))
    (db : List StoredPost) (did : String) (ua : Bool) (tr : String)
    (row : FetchedPost)
    (h1 : row ∈ drop_duplicates_by_uri (fetchedWorkingSet script db did ua tr)) :
    (fetchedWorkingSet script db did ua tr).isEmpty = false := by
  cases hcase : fetchedWorkingSet script db did ua tr with
  | nil =>
    rw [hcase] at h1
    simp only [drop_duplicates_by_uri, dedupURI] at h1
    exact absurd h1 (List.not_mem_nil row)
  | cons a l => rfl

theorem mergeOps_uri_ne_of_processRow_none (ua : Bool) (cutoff now : String)
    (tracked : List StoredPost) (deduped : List FetchedPost) (row : FetchedPost)
    (hpw : deduped.Pairwise (fun a b => a.uri ≠ b.uri))
    (h1 : row ∈ deduped)
    (hnone : processRow ua cutoff now tracked row = none) :
    ∀ op ∈ mergeOps ua cutoff now tracked deduped, writeOpUri op ≠ row.uri := by
  intro op hop hcon
  unfold mergeOps at hop
  rcases List.mem_filterMap.mp hop with ⟨r, hr, hpr⟩
  have huri := processRow_uri ua cutoff now tracked r op hpr
  have hreq : r = row :=
    mem_uri_inj FetchedPost.uri deduped hpw r hr row h1 (by rw [← huri, hcon])
  rw [hreq, hnone] at hpr
  cases hpr

theorem no_write_of_processRow_none (script : List (Except PyExc FeedPage))
    (db : List StoredPost) (did : String) (ua : Bool) (tr now : String)
    (row : FetchedPost)
    (h1 : row ∈ drop_duplicates_by_uri (fetchedWorkingSet script db did ua tr))
    (hnone : processRow ua (pySlice10 tr) now
      (trackedPosts db did ua (pySlice10 tr)) row = none) :
    (∀ u ∈ (update_posts_for_actor script db did ua tr now).updates, u.uri ≠ row.uri) ∧
    (∀ p ∈ (update_posts_for_actor script db did ua tr now).inserts, p.uri ≠ row.uri) := by
  have hne := fetched_nonempty_of_mem_dedup script db did ua tr row h1
  have hops := mergeOps_uri_ne_of_processRow_none ua (pySlice10 tr) now
    (trackedPosts db did ua (pySlice10 tr))
    (drop_duplicates_by_uri (fetchedWorkingSet script db did ua tr)) row
    (drop_duplicates_pairwise _) h1 hnone
  constructor
  · intro u hu
    rw [run_updates_eq script db did ua tr now hne] at hu
    rcases List.mem_filterMap.mp hu with ⟨o, ho, hto⟩
    rw [toUpdate_uri o u hto]
    exact hops o ho
  · intro p hp
    rw [run_inserts_eq script db did ua tr now hne] at hp
    rcases List.mem_filterMap.mp hp with ⟨o, ho, hto⟩
    rw [toInsert_uri o p hto]
    exact hops o ho

/-- C2 counterexample: the incremental skip test is
`post_created_at <= str(time_range)[0:10]`, a string comparison of the
full creation timestamp against the ten-character cutoff DATE.  The post
below is created at 01:00 on the cutoff calendar day, strictly earlier
than the instant now − 7 days (12:00 that day), yet the timestamp string
is lexicographically above the date string, so the merge loop processes
the post and inserts it — contradicting the claim that it is neither
inserted nor updated. -/
theorem incremental_skip_counterexample :
    pyLt "2026-10-03T01:00:00" "2026-10-03T12:00:00" = true ∧
    (update_posts_for_actor
        [Except.ok ⟨[⟨"at://post1", "did:abc", 5, 1, 0, 2, "2026-10-03T01:00:00"⟩],
          none⟩]
        [] "did:abc" false "2026-10-03T12:00:00" "2026-10-10T12:00:05").inserts =
      [⟨"at://post1", "did:abc", 5, 1, 0, 2, "2026-10-03T01:00:00",
        "2026-10-10T12:00:05"⟩] := by
  constructor
  · decide
  · decide

/-- C2 (amended): in incremental mode the merge loop skips exactly the
fetched posts whose creation timestamp string is at most the ten-character
date prefix of now − 7 days — i.e. posts created on a calendar day
strictly before the cutoff day.  Such a post is neither inserted nor
updated: no write of the run targets its URI.  (Posts created on the
cutoff calendar day but before the exact instant now − 7 days are
processed, as the counterexample shows.) -/
theorem incremental_skip_before_cutoff_date (script : List (Except PyExc FeedPage))
    (db : List StoredPost) (did tr now : String) (row : FetchedPost)
    (h1 : row ∈ drop_duplicates_by_uri (fetchedWorkingSet script db did false tr))
    (h2 : pyLe row.createdAt (pySlice10 tr) = true) :
    (∀ u ∈ (update_posts_for_actor script db did false tr now).updates,
      u.uri ≠ row.uri) ∧
    (∀ p ∈ (update_posts_for_actor script db did false tr now).inserts,
      p.uri ≠ row.uri) := by
  apply no_write_of_processRow_none script db did false tr now row h1
  unfold processRow
  rw [show (!false && pyLe row.createdAt (pySlice10 tr)) = true from by
    rw [h2]
    rfl]
  rfl

/-- Witness for C2 at a concrete old post: created well before the cutoff
day, fetched in incremental mode, and indeed never written. -/
theorem incremental_skip_before_cutoff_date_witness :
    (⟨"at://old", "did:abc", 4, 0, 0, 1, "2026-09-01T08:00:00"⟩ : FetchedPost) ∈
      drop_duplicates_by_uri (fetchedWorkingSet
        [Except.ok ⟨[⟨"at://old", "did:abc", 4, 0, 0, 1, "2026-09-01T08:00:00"⟩], none⟩]
        [] "did:abc" false "2026-10-03T12:00:00") ∧
    pyLe "2026-09-01T08:00:00" (pySlice10 "2026-10-03T12:00:00") = true ∧
    ((∀ u ∈ (update_posts_for_actor
        [Except.ok ⟨[⟨"at://old", "did:abc", 4, 0, 0, 1, "2026-09-01T08:00:00"⟩], none⟩]
        [] "did:abc" false "2026-10-03T12:00:00" "2026-10-10T12:00:05").updates,
      u.uri ≠ "at://old") ∧
     (∀ p ∈ (update_posts_for_actor
        [Except.ok ⟨[⟨"at://old", "did:abc", 4, 0, 0, 1, "2026-09-01T08:00:00"⟩], none⟩]
        [] "did:abc" false "2026-10-03T12:00:00" "2026-10-10T12:00:05").inserts,
      p.uri ≠ "at://old")) :=
  ⟨by decide, by decide,
   incremental_skip_before_cutoff_date
     [Except.ok ⟨[⟨"at://old", "did:abc", 4, 0, 0, 1, "2026-09-01T08:00:00"⟩], none⟩]
     [] "did:abc" "2026-10-03T12:00:00" "2026-10-10T12:00:05"
     ⟨"at://old", "did:abc", 4, 0, 0, 1, "2026-09-01T08:00:00"⟩
     (by decide) (by decide)⟩

theorem mergeOps_pairwise (ua : Bool) (cutoff now : String)
    (tracked : List StoredPost) (deduped : List FetchedPost)
    (hpw : deduped.Pairwise (fun a b => a.uri ≠ b.uri)) :
    (mergeOps ua cutoff now tracked deduped).Pairwise
      (fun a b => writeOpUri a ≠ writeOpUri b) := by
  unfold mergeOps
  exact pairwise_filterMap_name (processRow ua cutoff now tracked)
    FetchedPost.uri writeOpUri
    (fun a b h => processRow_uri ua cutoff now tracked a b h) deduped hpw

theorem updates_pairwise (ops : List WriteOp)
    (hpw : ops.Pairwise (fun a b => writeOpUri a ≠ writeOpUri b)) :
    (ops.filterMap toUpdate).Pairwise (fun a b => a.uri ≠ b.uri) :=
  pairwise_filterMap_name toUpdate writeOpUri UpdateOp.uri
    (fun o u h => toUpdate_uri o u h) ops hpw

theorem inserts_pairwise (ops : List WriteOp)
    (hpw : ops.Pairwise (fun a b => writeOpUri a ≠ writeOpUri b)) :
    (ops.filterMap toInsert).Pairwise (fun a b => a.uri ≠ b.uri) :=
  pairwise_filterMap_name toInsert writeOpUri StoredPost.uri
    (fun o p h => toInsert_uri o p h) ops hpw

/-- C4: for a fetched post that survives the recency filter and whose URI
is found in the loaded tracked-post lookup: when all four engagement
counters equal the stored values, no write of the run targets that URI;
when any differs, the executed updates contain exactly the statement
`SET likes, replies, quotes, reposts, updatedAt = now WHERE uri`, and
every row of the posts table bearing that URI ends up with the four
counters overwritten, `updatedAt = now`, and its `createdAt` (and `did`)
unchanged. -/
theorem merge_counter_comparison (script : List (Except PyExc FeedPage))
    (db : List StoredPost) (did : String) (ua : Bool) (tr now : String)
    (row : FetchedPost) (ex : StoredPost)
    (h1 : row ∈ drop_duplicates_by_uri (fetchedWorkingSet script db did ua tr))
    (h2 : (!ua && pyLe row.createdAt (pySlice10 tr)) = false)
    (h3 : (trackedPosts db did ua (pySlice10 tr)).find?
      (fun p => p.uri == row.uri) = some ex) :
    ((ex.likes != row.likeCount || ex.replies != row.replyCount ||
        ex.quotes != row.quoteCount || ex.reposts != row.repostCount) = false →
      (∀ u ∈ (update_posts_for_actor script db did ua tr now).updates,
        u.uri ≠ row.uri) ∧
      (∀ p ∈ (update_posts_for_actor script db did ua tr now).inserts,
        p.uri ≠ row.uri)) ∧
    ((ex.likes != row.likeCount || ex.replies != row.replyCount ||
        ex.quotes != row.quoteCount || ex.reposts != row.repostCount) = true →
      (⟨row.likeCount, row.replyCount, row.quoteCount, row.repostCount, now,
          row.uri⟩ : UpdateOp) ∈
        (update_posts_for_actor script db did ua tr now).updates ∧
      (∀ p ∈ db, p.uri = row.uri →
        { p with likes := row.likeCount, replies := row.replyCount,
                 quotes := row.quoteCount, reposts := row.repostCount,
                 updatedAt := now } ∈
          (update_posts_for_actor script db did ua tr now).table)) := by
  have hne := fetched_nonempty_of_mem_dedup script db did ua tr row h1
  constructor
  · intro heq
    apply no_write_of_processRow_none script db did ua tr now row h1
    unfold processRow
    rw [h2]
    simp only [Bool.false_eq_true, if_false]
    rw [h3]
    simp [heq]
  · intro hch
    have hpr : processRow ua (pySlice10 tr) now
        (trackedPosts db did ua (pySlice10 tr)) row =
        some (.update ⟨row.likeCount, row.replyCount, row.quoteCount,
          row.repostCount, now, row.uri⟩) := by
      unfold processRow
      rw [h2]
      simp only [Bool.false_eq_true, if_false]
      rw [h3]
      simp [hch]
    have hopmem : (WriteOp.update ⟨row.likeCount, row.replyCount, row.quoteCount,
        row.repostCount, now, row.uri⟩) ∈
        mergeOps ua (pySlice10 tr) now (trackedPosts db did ua (pySlice10 tr))
          (drop_duplicates_by_uri (fetchedWorkingSet script db did ua tr)) := by
      unfold mergeOps
      exact List.mem_filterMap.mpr ⟨row, h1, hpr⟩
    have humem : (⟨row.likeCount, row.replyCount, row.quoteCount,
        row.repostCount, now, row.uri⟩ : UpdateOp) ∈
        (mergeOps ua (pySlice10 tr) now (trackedPosts db did ua (pySlice10 tr))
          (drop_duplicates_by_uri (fetchedWorkingSet script db did ua tr))).filterMap
            toUpdate :=
      List.mem_filterMap.mpr ⟨_, hopmem, rfl⟩
    constructor
    · rw [run_updates_eq script db did ua tr now hne]
      exact humem
    · intro p hp hpuri
      rw [run_table_eq script db did ua tr now hne]
      apply List.mem_append_left
      rw [foldl_applyUpdate_eq_map]
      have hupw := updates_pairwise
        (mergeOps ua (pySlice10 tr) now (trackedPosts db did ua (pySlice10 tr))
          (drop_duplicates_by_uri (fetchedWorkingSet script db did ua tr)))
        (mergeOps_pairwise ua (pySlice10 tr) now
          (trackedPosts db did ua (pySlice10 tr))
          (drop_duplicates_by_uri (fetchedWorkingSet script db did ua tr))
          (drop_duplicates_pairwise (fetchedWorkingSet script db did ua tr)))
      have hfilter := filter_eq_singleton_of_pairwise UpdateOp.uri
        ((mergeOps ua (pySlice10 tr) now (trackedPosts db did ua (pySlice10 tr))
          (drop_duplicates_by_uri (fetchedWorkingSet script db did ua tr))).filterMap
            toUpdate)
        ⟨row.likeCount, row.replyCount, row.quoteCount, row.repostCount, now,
          row.uri⟩ p.uri hupw humem (by rw [hpuri])
      exact List.mem_map.mpr ⟨p, hp, foldl_applyRow_single _ p _ hfilter⟩

/-- Witness for C4: a stored post whose like count changed from 10 to 15
is updated in place with `updatedAt` refreshed and `createdAt` kept. -/
theorem merge_counter_comparison_witness :
    (⟨"at://p2", "did:abc", 15, 1, 0, 2, "2026-10-09T00:00:00"⟩ : FetchedPost) ∈
      drop_duplicates_by_uri (fetchedWorkingSet
        [Except.ok ⟨[⟨"at://p2", "did:abc", 15, 1, 0, 2, "2026-10-09T00:00:00"⟩], none⟩]
        [⟨"at://p2", "did:abc", 10, 1, 0, 2, "2026-10-09T00:00:00",
          "2026-10-09T12:00:00"⟩]
        "did:abc" false "2026-10-03T12:00:00") ∧
    (!false && pyLe "2026-10-09T00:00:00"
      (pySlice10 "2026-10-03T12:00:00")) = false ∧
    (trackedPosts
        [⟨"at://p2", "did:abc", 10, 1, 0, 2, "2026-10-09T00:00:00",
          "2026-10-09T12:00:00"⟩]
        "did:abc" false (pySlice10 "2026-10-03T12:00:00")).find?
      (fun p => p.uri == "at://p2") =
      some ⟨"at://p2", "did:abc", 10, 1, 0, 2, "2026-10-09T00:00:00",
        "2026-10-09T12:00:00"⟩ ∧
    (((10 : Nat) != 15 || (1 : Nat) != 1 || (0 : Nat) != 0 ||
        (2 : Nat) != 2) = true →
      (⟨15, 1, 0, 2, "2026-10-10T12:00:05", "at://p2"⟩ : UpdateOp) ∈
        (update_posts_for_actor
          [Except.ok ⟨[⟨"at://p2", "did:abc", 15, 1, 0, 2, "2026-10-09T00:00:00"⟩],
            none⟩]
          [⟨"at://p2", "did:abc", 10, 1, 0, 2, "2026-10-09T00:00:00",
            "2026-10-09T12:00:00"⟩]
          "did:abc" false "2026-10-03T12:00:00" "2026-10-10T12:00:05").updates ∧
      (∀ p ∈ [(⟨"at://p2", "did:abc", 10, 1, 0, 2, "2026-10-09T00:00:00",
          "2026-10-09T12:00:00"⟩ : StoredPost)], p.uri = "at://p2" →
        { p with likes := (15 : Nat), replies := (1 : Nat), quotes := (0 : Nat),
                 reposts := (2 : Nat), updatedAt := "2026-10-10T12:00:05" } ∈
          (update_posts_for_actor
            [Except.ok ⟨[⟨"at://p2", "did:abc", 15, 1, 0, 2,
              "2026-10-09T00:00:00"⟩], none⟩]
            [⟨"at://p2", "did:abc", 10, 1, 0, 2, "2026-10-09T00:00:00",
              "2026-10-09T12:00:00"⟩]
            "did:abc" false "2026-10-03T12:00:00" "2026-10-10T12:00:05").table)) :=
  ⟨by decide, by decide, by decide,
   (merge_counter_comparison
     [Except.ok ⟨[⟨"at://p2", "did:abc", 15, 1, 0, 2, "2026-10-09T00:00:00"⟩], none⟩]
     [⟨"at://p2", "did:abc", 10, 1, 0, 2, "2026-10-09T00:00:00",
       "2026-10-09T12:00:00"⟩]
     "did:abc" false "2026-10-03T12:00:00" "2026-10-10T12:00:05"
     ⟨"at://p2", "did:abc", 15, 1, 0, 2, "2026-10-09T00:00:00"⟩
     ⟨"at://p2", "did:abc", 10, 1, 0, 2, "2026-10-09T00:00:00",
       "2026-10-09T12:00:00"⟩
     (by decide) (by decide) (by decide)).2⟩

theorem filterMap_toUpdate_map_uri :
    ∀ ops : List WriteOp,
      (ops.filterMap toUpdate).map UpdateOp.uri =
        (ops.filter isUpdateOp).map writeOpUri := by
  intro ops
  induction ops with
  | nil => rfl
  | cons o rest ih =>
    cases o with
    | update u =>
      simp only [List.filterMap_cons, List.filter_cons, toUpdate, isUpdateOp,
        List.map_cons, if_true]
      rw [ih]
      rfl
    | insert p =>
      simp only [List.filterMap_cons, List.filter_cons, toUpdate, isUpdateOp]
      simpa using ih

theorem filterMap_toInsert_map_uri :
    ∀ ops : List WriteOp,
      (ops.filterMap toInsert).map StoredPost.uri =
        (ops.filter (fun o => !isUpdateOp o)).map writeOpUri := by
  intro ops
  induction ops with
  | nil => rfl
  | cons o rest ih =>
    cases o with
    | update u =>
      simp only [List.filterMap_cons, List.filter_cons, toInsert, isUpdateOp]
      simpa using ih
    | insert p =>
      simp only [List.filterMap_cons, List.filter_cons, toInsert, isUpdateOp,
        List.map_cons]
      simp only [Bool.not_false, if_true, List.map_cons]
      rw [ih]
      rfl

theorem writeUris_perm_ops (ops : List WriteOp) :
    ((ops.filterMap toUpdate).map UpdateOp.uri ++
      (ops.filterMap toInsert).map StoredPost.uri).Perm (ops.map writeOpUri) := by
  rw [filterMap_toUpdate_map_uri, filterMap_toInsert_map_uri, ← List.map_append]
  exact (List.filter_append_perm isUpdateOp ops).map writeOpUri

/-- C5 counterexample: the URI `at://p2` appears twice in the fetched
working set (pagination overlap), but since the stored counters already
equal the fetched ones the run applies ZERO inserts or updates for it —
refuting "exactly one insert or update is applied for that URI". -/
theorem dedup_exactly_one_write_counterexample :
    ((fetchedWorkingSet
        [Except.ok ⟨[⟨"at://p2", "did:abc", 10, 1, 0, 2, "2026-10-09T00:00:00"⟩,
          ⟨"at://p2", "did:abc", 10, 1, 0, 2, "2026-10-09T00:00:00"⟩], none⟩]
        [⟨"at://p2", "did:abc", 10, 1, 0, 2, "2026-10-09T00:00:00",
          "2026-10-09T12:00:00"⟩]
        "did:abc" false "2026-10-03T12:00:00").map FetchedPost.uri).count
      "at://p2" = 2 ∧
    writeUris (update_posts_for_actor
        [Except.ok ⟨[⟨"at://p2", "did:abc", 10, 1, 0, 2, "2026-10-09T00:00:00"⟩,
          ⟨"at://p2", "did:abc", 10, 1, 0, 2, "2026-10-09T00:00:00"⟩], none⟩]
        [⟨"at://p2", "did:abc", 10, 1, 0, 2, "2026-10-09T00:00:00",
          "2026-10-09T12:00:00"⟩]
        "did:abc" false "2026-10-03T12:00:00" "2026-10-10T12:00:05") = [] := by
  constructor
  · decide
  · decide

/-- C5 (amended): the working set is deduplicated by URI before the merge,
so at most one insert or update is applied per URI in a single run —
exactly one when the post is new, or existing with changed counters and
inside the recency window; zero otherwise. -/
theorem write_per_uri_at_most_one (script : List (Except PyExc FeedPage))
    (db : List StoredPost) (did : String) (ua : Bool) (tr now u : String) :
    (writeUris (update_posts_for_actor script db did ua tr now)).count u ≤ 1 := by
  by_cases hne : (fetchedWorkingSet script db did ua tr).isEmpty = true
  · unfold update_posts_for_actor writeUris
    simp [hne]
  · rw [Bool.not_eq_true] at hne
    have hudef := run_updates_eq script db did ua tr now hne
    have hidef := run_inserts_eq script db did ua tr now hne
    have hperm := writeUris_perm_ops
      (mergeOps ua (pySlice10 tr) now (trackedPosts db did ua (pySlice10 tr))
        (drop_duplicates_by_uri (fetchedWorkingSet script db did ua tr)))
    have hmapnodup : ((mergeOps ua (pySlice10 tr) now
        (trackedPosts db did ua (pySlice10 tr))
        (drop_duplicates_by_uri (fetchedWorkingSet script db did ua tr))).map
          writeOpUri).Nodup :=
      List.pairwise_map.mpr (mergeOps_pairwise ua (pySlice10 tr) now
        (trackedPosts db did ua (pySlice10 tr))
        (drop_duplicates_by_uri (fetchedWorkingSet script db did ua tr))
        (drop_duplicates_pairwise (fetchedWorkingSet script db did ua tr)))
    have hnodup : (writeUris (update_posts_for_actor script db did ua tr now)).Nodup := by
      unfold writeUris
      rw [hudef, hidef]
      exact hperm.nodup_iff.mpr hmapnodup
    exact List.nodup_iff_count_le_one.mp hnodup u

/-- C3: when the account has zero stored posts, `update_posts_for_actor`
fetches with `fetch_all = True` regardless of the requested mode; with at
least one stored post it fetches with the requested `update_all` flag. -/
theorem zero_posts_forces_full_fetch (script : List (Except PyExc FeedPage))
    (db : List StoredPost) (did : String) (ua : Bool) (tr : String) :
    ((db.filter (fun p => p.did == did)).length = 0 →
      fetchedWorkingSet script db did ua tr =
        get_posts_for_actor tr did script "" [] true) ∧
    (0 < (db.filter (fun p => p.did == did)).length →
      fetchedWorkingSet script db did ua tr =
        get_posts_for_actor tr did script "" [] ua) := by
  constructor
  · intro h
    unfold fetchedWorkingSet postFetchMode
    simp [h]
  · intro h
    unfold fetchedWorkingSet postFetchMode
    have hz : ((db.filter (fun p => p.did == did)).length == 0) = false := by
      rw [beq_eq_false_iff_ne]
      omega
    simp [hz]

/-- Witness for C3 at an empty posts table and an incremental request. -/
theorem zero_posts_forces_full_fetch_witness :
    (([] : List StoredPost).filter (fun p => p.did == "did:abc")).length = 0 ∧
    fetchedWorkingSet [] [] "did:abc" false "2026-10-03T12:00:00" =
      get_posts_for_actor "2026-10-03T12:00:00" "did:abc" [] "" [] true :=
  ⟨by decide,
   (zero_posts_forces_full_fetch [] [] "did:abc" false "2026-10-03T12:00:00").1
     (by decide)⟩

/-- C9: `get_engagement_totals` returns the component-wise sums of likes,
replies, quotes and reposts over the stored posts of the account, and the
all-zero record (rather than failing) when the account has no posts. -/
theorem engagement_totals_are_sums (posts : List StoredPost) (did : String) :
    get_engagement_totals posts did =
      ⟨((posts.filter (fun p => p.did == did)).map StoredPost.likes).sum,
       ((posts.filter (fun p => p.did == did)).map StoredPost.replies).sum,
       ((posts.filter (fun p => p.did == did)).map StoredPost.quotes).sum,
       ((posts.filter (fun p => p.did == did)).map StoredPost.reposts).sum⟩ ∧
    ((posts.filter (fun p => p.did == did)).isEmpty = true →
      get_engagement_totals posts did = ⟨0, 0, 0, 0⟩) := by
  constructor
  · unfold get_engagement_totals
    by_cases h : (posts.filter (fun p => p.did == did)).isEmpty = true
    · rw [if_pos h]
      rw [List.isEmpty_iff] at h
      rw [h]
      rfl
    · rw [Bool.not_eq_true] at h
      simp only [h, Bool.false_eq_true, if_false]
  · intro h
    unfold get_engagement_totals
    rw [if_pos h]

/-- Witness for C9 at an empty posts table. -/
theorem engagement_totals_are_sums_witness :
    (([] : List StoredPost).filter (fun p => p.did == "did:abc")).isEmpty = true ∧
    get_engagement_totals [] "did:abc" = ⟨0, 0, 0, 0⟩ :=
  ⟨by decide, (engagement_totals_are_sums [] "did:abc").2 (by decide)⟩

/-- C8 counterexample: when the provider returns no match,
`get_single_profile` raises `BlueskyAPIError` — the very same Python
exception class a transport failure raises.  The code defines no distinct
`NotFoundError` kind, so a caller catching by class cannot tell the two
apart; the claimed distinctness is false. -/
theorem single_profile_error_kind_counterexample :
    get_single_profile (Except.ok []) "bsky.app" =
      .error (.blueskyAPIError "No profile found for bsky.app") ∧
    get_single_profile
        (Except.error (.blueskyAPIError
          "Failed to call app.bsky.actor.getProfiles: timeout")) "bsky.app" =
      .error (.blueskyAPIError
        "Failed to call app.bsky.actor.getProfiles: timeout") ∧
    pyExcClass (.blueskyAPIError "No profile found for bsky.app") =
      pyExcClass (.blueskyAPIError
        "Failed to call app.bsky.actor.getProfiles: timeout") := by
  refine ⟨?_, ?_, ?_⟩ <;> rfl

/-- C8 (amended): on an empty provider result `get_single_profile` raises
`BlueskyAPIError` with message "No profile found for" plus the id — the
same exception class as a transport failure, not a distinct kind; a
transport failure propagates unchanged; otherwise the first returned
profile is the result. -/
theorem get_single_profile_spec (ps : List UserProfile) (e : PyExc)
    (actor : String) :
    get_single_profile (Except.ok ps) actor =
      (match ps with
       | [] => Except.error (.blueskyAPIError ("No profile found for " ++ actor))
       | p :: _ => Except.ok p) ∧
    get_single_profile (Except.error e) actor = .error e := by
  constructor
  · cases ps <;> rfl
  · rfl

theorem processE_some_inv (env : ProcessEnv) (profile : UserProfile)
    (cd : String) (r : SnapshotData)
    (h : process_user_profileE env profile cd = .ok (some r)) :
    (∃ u, env.getUser = .ok (some u) ∧ u.skipUser = false ∧
      (should_update_user profile u = true → env.updateProfile = .ok ())) ∧
    env.updatePosts = .ok () ∧ (∃ eng, env.getEngagement = .ok eng) ∧
    env.upsertSnap = .ok () := by
  unfold process_user_profileE at h
  cases hg : env.getUser with
  | error e => rw [hg] at h; simp at h
  | ok ou =>
    rw [hg] at h
    cases ou with
    | none => simp at h
    | some u =>
      simp only at h
      by_cases hs : u.skipUser = true
      · rw [hs] at h
        simp at h
      · rw [Bool.not_eq_true] at hs
        rw [hs] at h
        simp only [Bool.false_eq_true, if_false] at h
        cases hup : (if should_update_user profile u then env.updateProfile
            else Except.ok ()) with
        | error e => rw [hup] at h; simp at h
        | ok unit1 =>
          rw [hup] at h
          simp only at h
          cases hpost : env.updatePosts with
          | error e => rw [hpost] at h; simp at h
          | ok unit2 =>
            rw [hpost] at h
            simp only at h
            cases heng : env.getEngagement with
            | error e => rw [heng] at h; simp at h
            | ok eng =>
              rw [heng] at h
              simp only at h
              cases hsnap : env.upsertSnap with
              | error e => rw [hsnap] at h; simp at h
              | ok unit3 =>
                refine ⟨⟨u, rfl, hs, ?_⟩, ?_, ⟨eng, rfl⟩, ?_⟩
                · intro hsu
                  rw [hsu] at hup
                  simp only [if_true] at hup
                  cases unit1
                  exact hup
                · cases unit2
                  rfl
                · cases unit3
                  rfl

theorem length_filterMap_eq_length_filter_isSome {α β : Type} (f : α → Option β) :
    ∀ l : List α,
      (l.filterMap f).length = (l.filter (fun a => (f a).isSome)).length := by
  intro l
  induction l with
  | nil => rfl
  | cons a as ih =>
    cases hfa : f a with
    | none => simp [List.filterMap_cons, List.filter_cons, hfa, ih]
    | some b => simp [List.filterMap_cons, List.filter_cons, hfa, ih]

/-- C6: the per-account task returns no result (and never raises) when
the stored record is absent, when its skip flag is set, or when any
exception is raised by a call the task performs (profile update when
attempted, post sync, aggregation, upsert); and the batch count is
exactly the number of profiles whose independent task produced a result,
so a no-result account is excluded from it. -/
theorem process_user_profile_none_cases (env : ProcessEnv)
    (profile : UserProfile) (cd : String)
    (h : processNoneTrigger env profile) :
    process_user_profile env profile cd = none ∧
    ∀ (users : List (String × String))
      (fetchChunk : List String → Except PyExc (List UserProfile))
      (envOf : UserProfile → ProcessEnv) (cd2 : String),
      create_snapshots_batch users fetchChunk envOf cd2 =
        ((collect_profiles fetchChunk (chunk_users users 25)).filter
          (fun p => (process_user_profile (envOf p) p cd2).isSome)).length := by
  constructor
  · cases hres : process_user_profile env profile cd with
    | none => rfl
    | some r =>
      exfalso
      have hE : process_user_profileE env profile cd = .ok (some r) := by
        cases hE2 : process_user_profileE env profile cd with
        | error e =>
          have hnone : process_user_profile env profile cd = none := by
            unfold process_user_profile
            rw [hE2]
          rw [hnone] at hres
          cases hres
        | ok o =>
          have hok : process_user_profile env profile cd = o := by
            unfold process_user_profile
            rw [hE2]
          rw [hok] at hres
          rw [hres]
      have inv := processE_some_inv env profile cd r hE
      rcases inv with ⟨⟨u, hu, hskip, hupd⟩, hpost, ⟨eng, heng⟩, hsnap⟩
      rcases h with h | ⟨u2, hu2, hsk2⟩ | ⟨e, he⟩ | ⟨e, he⟩ | ⟨e, he⟩ | ⟨e, he⟩ |
        ⟨e, u2, hu2, hsu2, he⟩
      · rw [h] at hu; cases hu
      · rw [hu2] at hu
        cases hu
        rw [hsk2] at hskip
        cases hskip
      · rw [he] at hu; cases hu
      · rw [he] at hpost; cases hpost
      · rw [he] at heng; cases heng
      · rw [he] at hsnap; cases hsnap
      · rw [hu2] at hu
        cases hu
        rw [hupd hsu2] at he
        cases he
  · intro users fetchChunk envOf cd2
    unfold create_snapshots_batch
    by_cases hu : users.isEmpty = true
    · rw [if_pos hu]
      rw [List.isEmpty_iff] at hu
      subst hu
      rfl
    · rw [Bool.not_eq_true] at hu
      simp only [hu, Bool.false_eq_true, if_false]
      exact length_filterMap_eq_length_filter_isSome _ _

/-- Witness for C6: stored record absent, so the task yields no result. -/
theorem process_user_profile_none_cases_witness :
    processNoneTrigger ⟨.ok none, .ok (), .ok (), .ok ⟨0, 0, 0, 0⟩, .ok ()⟩
      ⟨"did:abc", "abc.bsky.social", none, none, 100, 50, 5⟩ ∧
    process_user_profile ⟨.ok none, .ok (), .ok (), .ok ⟨0, 0, 0, 0⟩, .ok ()⟩
      ⟨"did:abc", "abc.bsky.social", none, none, 100, 50, 5⟩ "2026-10-05" = none :=
  ⟨Or.inl rfl,
   (process_user_profile_none_cases
     ⟨.ok none, .ok (), .ok (), .ok ⟨0, 0, 0, 0⟩, .ok ()⟩
     ⟨"did:abc", "abc.bsky.social", none, none, 100, 50, 5⟩ "2026-10-05"
     (Or.inl rfl)).1⟩

theorem collect_step_eq (fetchChunk : List String → Except PyExc (List UserProfile))
    (acc : List UserProfile) (c : List (String × String)) :
    (match fetchChunk (c.map Prod.fst) with
      | .ok ps => acc ++ ps
      | .error _ => acc) = acc ++ chunkProfiles fetchChunk c := by
  cases hc : fetchChunk (c.map Prod.fst) <;> simp [chunkProfiles, hc]

theorem collect_profiles_eq_join
    (fetchChunk : List String → Except PyExc (List UserProfile)) :
    ∀ (chunks : List (List (String × String))) (acc : List UserProfile),
      chunks.foldl
        (fun acc chunk =>
          match fetchChunk (chunk.map Prod.fst) with
          | .ok ps => acc ++ ps
          | .error _ => acc) acc =
      acc ++ (chunks.map (chunkProfiles fetchChunk)).flatten := by
  intro chunks
  induction chunks with
  | nil => intro acc; simp
  | cons c rest ih =>
    intro acc
    simp only [List.foldl_cons, List.map_cons, List.flatten_cons]
    rw [collect_step_eq fetchChunk acc c, ih, List.append_assoc]

/-- C7: per-chunk profile-fetch failures are swallowed — a failing chunk
contributes no profiles, the collected profile set is exactly the join of
the per-chunk contributions, the processed count is computed from that
reduced set only, and the run still finalizes its log entry: the created
`in_progress` row ends with status `completed`, the run duration and the
processed count. -/
theorem batch_partial_failure_completes (logs : List SnapshotLog)
    (startDate endDate : String) (duration : Nat)
    (users : List (String × String))
    (fetchChunk : List String → Except PyExc (List UserProfile))
    (envOf : UserProfile → ProcessEnv) (cd : String)
    (h : ∃ c ∈ chunk_users users 25,
      exceptOk (fetchChunk (c.map Prod.fst)) = false) :
    collect_profiles fetchChunk (chunk_users users 25) =
      ((chunk_users users 25).map (chunkProfiles fetchChunk)).flatten ∧
    (run_snapshot_collection logs startDate endDate duration users fetchChunk
        envOf cd).2 =
      ((((chunk_users users 25).map (chunkProfiles fetchChunk)).flatten).filterMap
        (fun p => process_user_profile (envOf p) p cd)).length ∧
    (run_snapshot_collection logs startDate endDate duration users fetchChunk
        envOf cd).1.getLast? =
      some ⟨logs.length + 1, "completed", startDate, endDate, duration,
        (run_snapshot_collection logs startDate endDate duration users fetchChunk
          envOf cd).2⟩ := by
  have husers : users.isEmpty = false := by
    rcases h with ⟨c, hc, _⟩
    cases users with
    | nil =>
      simp only [chunk_users, List.length_nil, chunkUsersGo] at hc
      exact absurd hc (List.not_mem_nil c)
    | cons a l => rfl
  have hA : collect_profiles fetchChunk (chunk_users users 25) =
      ((chunk_users users 25).map (chunkProfiles fetchChunk)).flatten := by
    unfold collect_profiles
    rw [collect_profiles_eq_join]
    rfl
  have hB : create_snapshots_batch users fetchChunk envOf cd =
      ((((chunk_users users 25).map (chunkProfiles fetchChunk)).flatten).filterMap
        (fun p => process_user_profile (envOf p) p cd)).length := by
    unfold create_snapshots_batch
    simp only [husers, Bool.false_eq_true, if_false]
    rw [hA]
  refine ⟨hA, hB, ?_⟩
  unfold run_snapshot_collection create_snapshot_log update_snapshot_log
  simp only [List.map_append, List.map_cons, List.map_nil]
  rw [List.getLast?_concat]
  simp only [beq_self_eq_true, if_true]

/-- Witness for C7: 51 accounts chunk into three batches; the fetch for
the one-element batch fails, yet the log entry reaches `completed`. -/
theorem batch_partial_failure_completes_witness :
    (∃ c ∈ chunk_users usersW 25,
      exceptOk (fetchChunkW (c.map Prod.fst)) = false) ∧
    (run_snapshot_collection [] "2026-10-05T00:00:00" "2026-10-05T00:05:00" 300
        usersW fetchChunkW envOfW "2026-10-05").1.getLast? =
      some ⟨1, "completed", "2026-10-05T00:00:00", "2026-10-05T00:05:00", 300,
        (run_snapshot_collection [] "2026-10-05T00:00:00" "2026-10-05T00:05:00"
          300 usersW fetchChunkW envOfW "2026-10-05").2⟩ :=
  ⟨⟨[("did:a", "a")], by decide, by decide⟩,
   (batch_partial_failure_completes [] "2026-10-05T00:00:00"
     "2026-10-05T00:05:00" 300 usersW fetchChunkW envOfW "2026-10-05"
     ⟨[("did:a", "a")], by decide, by decide⟩).2.2⟩

/-- C10: `get_posts_for_actor` never propagates an exception.  Its result
is always the accumulator plus the author-filtered feeds of the pages it
consumed successfully: some prefix of the response script consisting of
parsed pages only.  In particular, when the remote call raises (the error
response, or an exhausted script) or the cursor-date parse fails, the
function returns the posts accumulated up to that point — possibly just
the initial accumulator — and the merge then treats this partial working
set as the complete fetched set. -/
theorem get_posts_returns_accumulated_pages (tr actor : String) :
    ∀ (script : List (Except PyExc FeedPage)) (cursor : String)
      (posts0 : List FetchedPost) (fa : Bool),
      ∃ n, ((script.take n).all exceptOk) = true ∧
        get_posts_for_actor tr actor script cursor posts0 fa =
          posts0 ++ ((script.take n).filterMap (okPageFeed actor)).flatten := by
  intro script
  induction script with
  | nil =>
    intro cursor posts0 fa
    refine ⟨0, rfl, ?_⟩
    simp [get_posts_for_actor]
  | cons resp rest ih =>
    intro cursor posts0 fa
    cases resp with
    | error e =>
      refine ⟨0, rfl, ?_⟩
      simp [get_posts_for_actor]
    | ok page =>
      cases hcur : page.cursor with
      | none =>
        refine ⟨1, rfl, ?_⟩
        simp [get_posts_for_actor, okPageFeed, hcur]
      | some c =>
        by_cases hlen :
            (posts0 ++ page.feed.filter (fun p => p.authorDid == actor)).length <
              10000
        · cases fa with
          | true =>
            obtain ⟨n, hall, hres⟩ :=
              ih c (posts0 ++ page.feed.filter (fun p => p.authorDid == actor)) true
            refine ⟨n + 1, ?_, ?_⟩
            · simp [List.take_succ_cons, exceptOk, hall]
            · rw [show get_posts_for_actor tr actor (Except.ok page :: rest) cursor
                  posts0 true =
                  get_posts_for_actor tr actor rest c
                    (posts0 ++ page.feed.filter (fun p => p.authorDid == actor))
                    true from by
                simp [get_posts_for_actor, hcur, hlen]
                intro hge
                exfalso
                rw [List.length_append] at hlen
                omega]
              rw [hres]
              simp [okPageFeed, List.take_succ_cons]
          | false =>
            by_cases hparse : cursorDateParses c = true
            · by_cases hlt : pyLt tr (pySlice10 c) = true
              · obtain ⟨n, hall, hres⟩ :=
                  ih c (posts0 ++ page.feed.filter (fun p => p.authorDid == actor))
                    false
                refine ⟨n + 1, ?_, ?_⟩
                · simp [List.take_succ_cons, exceptOk, hall]
                · rw [show get_posts_for_actor tr actor (Except.ok page :: rest)
                      cursor posts0 false =
                      get_posts_for_actor tr actor rest c
                        (posts0 ++ page.feed.filter (fun p => p.authorDid == actor))
                        false from by
                    simp [get_posts_for_actor, hcur, hlen, hparse, hlt]
                    intro hge
                    exfalso
                    rw [List.length_append] at hlen
                    omega]
                  rw [hres]
                  simp [okPageFeed, List.take_succ_cons]
              · refine ⟨1, rfl, ?_⟩
                simp [get_posts_for_actor, okPageFeed, hcur, hlen, hparse, hlt]
            · refine ⟨1, rfl, ?_⟩
              simp [get_posts_for_actor, okPageFeed, hcur, hlen, hparse]
        · refine ⟨1, rfl, ?_⟩
          simp [get_posts_for_actor, okPageFeed, hcur, hlen]
          intro hlt2
          exfalso
          rw [List.length_append] at hlen
          omega

end Doppler
